import Mathlib

/-!
Shallow embedding of the mastohuman incremental-sync and cache-invalidation
core (files `mastohuman/etl/pipeline.py`, `mastohuman/llm/provider.py`,
`mastohuman/etl/normalize.py`, `mastohuman/db/models.py`), together with
theorems settling the frozen specification claims.

Timestamps are modelled as integers (seconds); `timedelta(minutes=15)` is
`15 * 60`, `timedelta(hours=4)` is `4 * 3600`, `timedelta(days=d)` is
`d * 86400`.  External collaborators (the HTML normalizer, the SHA-256
hash, `json.dumps`, `strftime`, the remote pagination source and the raw
LLM call) are parameters of the embedded functions: the remote source is a
finite list of pages, and the raw LLM call outcome is an `Option` value
(`none` models the call raising an exception).
-/

namespace MastoHuman

/-- Timestamps in seconds (UTC). -/
abbrev Time := Int

/-! ## Data model (`mastohuman/db/models.py`) -/

/-- Row of the `account` table. -/
structure Account where
  server_account_id : String
  acct : String
  display_name : Option String := none
  url : Option String := none
  avatar_url : Option String := none
  bot : Option Bool := some false
  created_at : Option Time := none
  last_seen_at : Time
  last_fetch_at : Option Time := none
deriving DecidableEq

/-- Row of the `status` table (a Post). -/
structure Status where
  remote_id : String
  account_acct : String
  created_at : Time
  content_html : String
  content_text : String
  url : Option String := none
  visibility : Option String := none
  is_boost : Bool := false
  is_reply : Bool := false
  in_reply_to_id : Option String := none
deriving DecidableEq

/-- Row of the `persondoc` table. -/
structure PersonDoc where
  account_acct : String
  doc_hash : String
  doc_text : String
deriving DecidableEq

/-- Row of the `summary` table. -/
structure Summary where
  account_acct : String
  doc_hash : String
  headline : String
  blurb : String
  tags_json : String
  llm_provider : String
  llm_model : String
  prompt_version : String
deriving DecidableEq

/-- The persistent store: the four tables the claims are about
(`IngestRun` rows are append-only audit data and carry no logic). -/
structure DB where
  accounts : List Account
  statuses : List Status
  personDocs : List PersonDoc
  summaries : List Summary
deriving DecidableEq

/-! ## Remote API records (`mastohuman/mastodon_client/client.py` results) -/

/-- An account record returned by the remote `following` listing. -/
structure ApiAccount where
  id : String
  acct : String
  created_at : Option Time := none
  display_name : Option String := none
  url : Option String := none
  avatar : Option String := none
  bot : Option Bool := none
deriving DecidableEq

/-- A post record returned by the remote `account_statuses` listing;
`reblog` is the truthiness of `post.get("reblog")`. -/
structure ApiPost where
  id : String
  created_at : Time
  content : String := ""
  url : Option String := none
  visibility : Option String := none
  in_reply_to_id : Option String := none
  reblog : Bool := false
deriving DecidableEq

/-! ## Generic list helpers (model of SQL row update / delete-first) -/

/-- Replace the first element satisfying `p` by its image under `f`
(model of fetching a row with `.first()`, mutating it and committing). -/
def replaceFirst {α : Type} (p : α → Bool) (f : α → α) : List α → List α
  | [] => []
  | a :: l => if p a then f a :: l else a :: replaceFirst p f l

/-! ## Registry Reconciler (`IngestionManager`) -/

/-- `select(Account.last_seen_at).order_by(desc).limit(1)`: the most recent
`last_seen_at` across all accounts, `none` when the table is empty. -/
def maxLastSeen (db : DB) : Option Time :=
  (db.accounts.map (fun a => a.last_seen_at)).max?

/-- `IngestionManager._should_refresh_following` (pipeline.py:81-104). -/
def should_refresh_following (now : Time) (db : DB) (force : Bool) : Bool :=
  if force then
    true
  else
    match maxLastSeen db with
    | none => true
    | some last_update =>
      if now - last_update < 4 * 3600 then false else true

/-- Modelled from the spec (§4.1 wording of the claim, for refinement
comparison only): true if `force`, true if there is no `last_seen_at`,
true if the most recent `last_seen_at` is STRICTLY older than 4 hours,
false otherwise. -/
def should_refresh_following_claim (now : Time) (db : DB) (force : Bool) : Bool :=
  if force then
    true
  else
    match maxLastSeen db with
    | none => true
    | some last_update => decide (4 * 3600 < now - last_update)

/-- The mutable-display-field overwrite done by `_upsert_account` on every
remote entry (pipeline.py:141-147). -/
def update_mutable_fields (now : Time) (api : ApiAccount) (a : Account) : Account :=
  { a with
      display_name := api.display_name
      url := api.url
      avatar_url := api.avatar
      bot := api.bot
      last_seen_at := now }

/-- A fresh `Account` row as constructed by `_upsert_account` when no row
with this handle exists (pipeline.py:134-139). -/
def new_account_row (api : ApiAccount) : Account :=
  { server_account_id := api.id
    acct := api.acct
    created_at := api.created_at
    last_seen_at := 0 }

/-- `IngestionManager._upsert_account` (pipeline.py:127-150). -/
def upsert_account (now : Time) (db : DB) (api : ApiAccount) : DB :=
  if db.accounts.any (fun a => a.acct == api.acct) then
    { db with accounts := (replaceFirst (fun a => a.acct == api.acct)
        (update_mutable_fields now api) db.accounts) }
  else
    { db with accounts := (db.accounts ++
        [update_mutable_fields now api (new_account_row api)]) }

/-- `IngestionManager._sync_following_list` (pipeline.py:106-125): fold the
upsert over all pages of the remote following list. -/
def sync_following_list (now : Time) (pages : List (List ApiAccount)) (db : DB) : DB :=
  pages.foldl (fun d page => page.foldl (upsert_account now) d) db

/-! ## Content Syncer (`IngestionManager._sync_author`, pipeline.py:152-245) -/

/-- `select(Status).where(Status.remote_id == remote_id)` non-emptiness. -/
def statusExists (db : DB) (remote_id : String) : Bool :=
  db.statuses.any (fun s => s.remote_id == remote_id)

/-- Insertion of a new `Status` row built from an API post
(pipeline.py:208-223); `normalize` is the external HTML normalizer. -/
def insertStatus (normalize : String → String) (acct : String) (post : ApiPost) (db : DB) : DB :=
  let is_reply := post.in_reply_to_id.isSome
  { db with statuses := (db.statuses ++
      [{ remote_id := post.id
         account_acct := acct
         created_at := post.created_at
         content_html := post.content
         content_text := normalize post.content
         url := post.url
         is_reply := is_reply
         in_reply_to_id := if is_reply then post.in_reply_to_id else none
         visibility := post.visibility }]) }

/-- Outcome of the inner `for post in page` loop: either the age cutoff
fired mid-page (early `return`) or the page completed with its
`page_existing_count`. -/
inductive PageStep where
  | cutoffHit (db : DB) (fetched : Nat)
  | completed (db : DB) (fetched : Nat) (page_existing : Nat)
deriving DecidableEq

/-- The inner `for post in page` loop of `_sync_author`
(pipeline.py:188-223): per-post checks in source order — age cutoff
(early return), boost skip, existence skip, insert. -/
def processPosts (normalize : String → String) (cutoff : Time) (acct : String) :
    DB → Nat → Nat → List ApiPost → PageStep
  | db, fetched, page_existing, [] => .completed db fetched page_existing
  | db, fetched, page_existing, post :: rest =>
    if post.created_at < cutoff then
      .cutoffHit db fetched
    else if post.reblog then
      processPosts normalize cutoff acct db fetched page_existing rest
    else if statusExists db post.id then
      processPosts normalize cutoff acct db fetched (page_existing + 1) rest
    else
      processPosts normalize cutoff acct (insertStatus normalize acct post db) (fetched + 1)
        page_existing rest

/-- Which stop condition ended the `_sync_author` call. -/
inductive StopReason where
  | noAccount
  | throttled
  | cutoff
  | overlap
  | maxCount
  | exhausted
deriving DecidableEq

/-- Result of the pagination loop: final store, cumulative fetched count,
the stop condition that fired, and how many pages were consumed from the
remote source. -/
structure PagesResult where
  db : DB
  fetched : Nat
  reason : StopReason
  pages_consumed : Nat
deriving DecidableEq

/-- The `for page in self.client.paginate(...)` loop of `_sync_author`
(pipeline.py:180-238): per page, run the post loop (which may early-return
on the age cutoff), then check the overlap-stop rule, then the max-count
rule. -/
def syncPages (normalize : String → String) (force_fetch : Bool) (max_statuses : Nat)
    (cutoff : Time) (acct : String) :
    DB → Nat → List (List ApiPost) → PagesResult
  | db, fetched, [] => ⟨db, fetched, .exhausted, 0⟩
  | db, fetched, page :: rest =>
    match processPosts normalize cutoff acct db fetched 0 page with
    | .cutoffHit db1 f1 => ⟨db1, f1, .cutoff, 1⟩
    | .completed db1 f1 page_existing =>
      if force_fetch = false ∧ 0 < page.length ∧ page_existing = page.length then
        ⟨db1, f1, .overlap, 1⟩
      else if max_statuses ≤ f1 then
        ⟨db1, f1, .maxCount, 1⟩
      else
        let r := syncPages normalize force_fetch max_statuses cutoff acct db1 f1 rest
        ⟨r.db, r.fetched, r.reason, r.pages_consumed + 1⟩

/-- `IngestionManager._mark_account_synced` (pipeline.py:242-245). -/
def mark_account_synced (now : Time) (acct : String) (db : DB) : DB :=
  { db with accounts := (replaceFirst (fun a => a.acct == acct)
      (fun a => { a with last_fetch_at := some now }) db.accounts) }

/-- The throttle gate of `_sync_author` (pipeline.py:164-170): skip when
not forced and the account was fetched strictly less than 15 minutes ago. -/
def throttle_gate (now : Time) (force_fetch : Bool) (account : Account) : Bool :=
  !force_fetch &&
    (match account.last_fetch_at with
     | some t => decide (now - t < 15 * 60)
     | none => false)

/-- Result of one `_sync_author` call.  `network_used` is true iff the
remote pagination source was invoked at all. -/
structure SyncResult where
  db : DB
  reason : StopReason
  fetched_count : Nat
  pages_consumed : Nat
  network_used : Bool
deriving DecidableEq

/-- `IngestionManager._sync_author` (pipeline.py:152-245).  `pages` is the
finite sequence of pages the remote source would serve for this account;
`max_age_days` and `max_statuses` are `settings.max_profile_age_days` and
`settings.max_profile_statuses`. -/
def sync_author (normalize : String → String) (max_age_days max_statuses : Nat)
    (now : Time) (pages : List (List ApiPost)) (db : DB) (acct : String)
    (force_fetch : Bool) : SyncResult :=
  match db.accounts.find? (fun a => a.acct == acct) with
  | none => ⟨db, .noAccount, 0, 0, false⟩
  | some account =>
    if throttle_gate now force_fetch account then
      ⟨db, .throttled, 0, 0, false⟩
    else
      let cutoff_date := now - (max_age_days : Int) * 86400
      let r := syncPages normalize force_fetch max_statuses cutoff_date acct db 0 pages
      ⟨mark_account_synced now acct r.db, r.reason, r.fetched, r.pages_consumed, true⟩

/-! ## Derived-Document Cache (`mastohuman/llm/provider.py`,
`mastohuman/etl/normalize.py`) -/

/-- The structured output of one summary generation. -/
structure SummaryOutput where
  headline : String
  blurb : String
  tags : List String := []
deriving DecidableEq

/-- `OpenAIProvider.generate_summary` (provider.py:43-71): the raw LLM
call either returns a parsed output (`some`) or raises (`none`); every
exception is caught and replaced by the fixed placeholder output, so the
caller never observes the failure. -/
def generate_summary (api_result : Option SummaryOutput) : SummaryOutput :=
  match api_result with
  | some out => out
  | none =>
    { headline := "Summary Unavailable"
      blurb := "Could not generate summary."
      tags := [] }

/-- The `account_dict` passed to `create_person_document_text`
(provider.py:134). -/
structure AccountInfo where
  display_name : Option String
  acct : String
deriving DecidableEq

/-- One entry of the `status_dicts` list passed to
`create_person_document_text` (provider.py:130-133). -/
structure StatusInfo where
  created_at : Time
  content_text : String
deriving DecidableEq

/-- The per-post truncation of `create_person_document_text`
(normalize.py:52-53). -/
def truncate_content (content : String) : String :=
  if content.length > 1000 then content.take 1000 ++ "[...]" else content

/-- `create_person_document_text` (normalize.py:32-59).  `fmtTime` is the
external `strftime("%Y-%m-%d %H:%M")` rendering.  Note the Python
falsiness of `account_info.get("display_name") or account_info.get("acct")`:
an empty display name also falls back to the handle. -/
def create_person_document_text (fmtTime : Time → String)
    (account_info : AccountInfo) (statuses : List StatusInfo) : String :=
  let display :=
    match account_info.display_name with
    | some d => if d = "" then account_info.acct else d
    | none => account_info.acct
  let header :=
    ["Account: " ++ display ++ " (" ++ account_info.acct ++ ")",
     String.mk (List.replicate 20 '-'),
     "Recent Original Posts (Newest First):",
     ""]
  let body := statuses.flatMap
    (fun s => ["[" ++ fmtTime s.created_at ++ "] " ++ truncate_content s.content_text, ""])
  String.intercalate "\n" (header ++ body)

/-- Stable insertion of `a` into a list sorted by `le`. -/
def insertSorted {α : Type} (le : α → α → Bool) (a : α) : List α → List α
  | [] => [a]
  | b :: l => if le a b then a :: b :: l else b :: insertSorted le a l

/-- Stable insertion sort by `le` (model of the SQL `ORDER BY`). -/
def sortBy {α : Type} (le : α → α → Bool) : List α → List α
  | [] => []
  | a :: l => insertSorted le a (sortBy le l)

/-- The status query of `Summarizer._process_account` (provider.py:111-122):
original (non-reply, non-boost) posts of the account, newest first, capped
at `settings.max_profile_statuses`. -/
def select_statuses (max_statuses : Nat) (db : DB) (acct : String) : List Status :=
  (sortBy (fun a b => decide (b.created_at ≤ a.created_at))
    (db.statuses.filter
      (fun s => s.account_acct == acct && !s.is_reply && !s.is_boost))).take max_statuses

/-- The document text assembled by `_process_account` (provider.py:128-138)
from the selected statuses and the account's display metadata. -/
def build_doc_text (fmtTime : Time → String) (max_statuses : Nat)
    (db : DB) (account : Account) : String :=
  create_person_document_text fmtTime
    { display_name := account.display_name, acct := account.acct }
    ((select_statuses max_statuses db account.acct).map
      (fun s => { created_at := s.created_at, content_text := s.content_text }))

/-- Result of one `_process_account` call: the new store and whether the
provider's generation call was made. -/
structure ProcessResult where
  db : DB
  generation_called : Bool
deriving DecidableEq

/-- `Summarizer._process_account` (provider.py:109-197).  `hash` is the
external SHA-256 hex digest, `dumps` is `json.dumps` on the tag list,
`provider_configured` models `self.provider` being non-`None`, and
`api_result` is the outcome of the raw LLM call if it is made. -/
def process_account (hash : String → String) (dumps : List String → String)
    (fmtTime : Time → String) (llm_provider llm_model : String)
    (provider_configured : Bool) (api_result : Option SummaryOutput)
    (max_statuses : Nat) (db : DB) (account : Account) (force : Bool) : ProcessResult :=
  let statuses := select_statuses max_statuses db account.acct
  if statuses.isEmpty then
    ⟨db, false⟩
  else
    let doc_text := build_doc_text fmtTime max_statuses db account
    let doc_hash := hash doc_text
    let cache_hit :=
      db.summaries.any (fun s => s.account_acct == account.acct && s.doc_hash == doc_hash)
    if cache_hit && !force then
      ⟨db, false⟩
    else if !provider_configured then
      ⟨db, false⟩
    else
      let result := generate_summary api_result
      let summaries := (db.summaries.eraseP (fun s => s.account_acct == account.acct)) ++
        [{ account_acct := account.acct
           doc_hash := doc_hash
           headline := result.headline
           blurb := result.blurb
           tags_json := dumps result.tags
           llm_provider := llm_provider
           llm_model := llm_model
           prompt_version := "1.0" }]
      let docs := (db.personDocs.eraseP (fun d => d.account_acct == account.acct)) ++
        [{ account_acct := account.acct, doc_hash := doc_hash, doc_text := doc_text }]
      ⟨{ db with summaries := summaries, personDocs := docs }, true⟩

/-! ## Projections used by the lemmas -/

/-- The store component of a `PageStep`. -/
def PageStep.outDb : PageStep → DB
  | .cutoffHit db _ => db
  | .completed db _ _ => db

/-- The cumulative fetched count of a `PageStep`. -/
def PageStep.outFetched : PageStep → Nat
  | .cutoffHit _ f => f
  | .completed _ f _ => f

/-! ## Concrete fixtures: small stores and remote responses used to
evaluate the embedded operations at explicit inputs. -/

/-- An account with no prior content sync. -/
def fixAlice : Account :=
  { server_account_id := "1", acct := "alice", last_seen_at := 0 }

/-- The same account just after a completed fetch at time 100. -/
def fixAliceFetched : Account :=
  { server_account_id := "1", acct := "alice", last_seen_at := 0, last_fetch_at := some 100 }

/-- A stored original post of `alice`. -/
def fixStatus : Status :=
  { remote_id := "s1", account_acct := "alice", created_at := 5,
    content_html := "<p>hi</p>", content_text := "hi" }

/-- A previously generated, valid summary of `alice` with fingerprint
`"oldhash"`. -/
def fixOldSummary : Summary :=
  { account_acct := "alice", doc_hash := "oldhash", headline := "Old headline",
    blurb := "Old blurb", tags_json := "[]", llm_provider := "openai",
    llm_model := "gpt-4o", prompt_version := "1.0" }

/-- Store for the generation-failure scenario: `alice` has one stored post
and a prior valid summary. -/
def fixC1db : DB :=
  { accounts := [fixAlice], statuses := [fixStatus], personDocs := [], summaries := [fixOldSummary] }

/-- The regeneration run of the generation-failure scenario: the raw LLM
call raises (`api_result = none`), the freshly assembled document hashes
to `"newhash"`. -/
def fixC1run : ProcessResult :=
  process_account (fun _ => "newhash") (fun _ => "[]") (fun _ => "ts") "openai" "gpt-4o"
    true none 500 fixC1db fixAlice false

/-- A remote post whose `created_at` is exactly the cutoff date of the
boundary scenario (`now = 86400`, `max_profile_age_days = 1`). -/
def fixBoundaryPost : ApiPost := { id := "p0", created_at := 0 }

/-- Store for the boundary scenario: `alice` exists and has no stored
posts. -/
def fixEmptyDb : DB :=
  { accounts := [fixAlice], statuses := [], personDocs := [], summaries := [] }

/-- The boundary sync run: one page holding exactly the boundary post. -/
def fixC2run : SyncResult :=
  sync_author (fun s => s) 1 500 86400 [[fixBoundaryPost]] fixEmptyDb "alice" false

/-- A stored copy of remote post `q1`. -/
def fixStoredQ1 : Status :=
  { remote_id := "q1", account_acct := "alice", created_at := 50,
    content_html := "", content_text := "" }

/-- Store for the second-run scenario: `alice` was fetched at time 100 and
post `q1` is already stored. -/
def fixC4db : DB :=
  { accounts := [fixAliceFetched], statuses := [fixStoredQ1], personDocs := [], summaries := [] }

/-- The remote copy of the already-stored post `q1`. -/
def fixQ1 : ApiPost := { id := "q1", created_at := 50 }

/-- The second sync run, 60 seconds after the completed fetch, with the
remote returning only the already-stored post. -/
def fixC4run : SyncResult :=
  sync_author (fun s => s) 92 500 160 [[fixQ1]] fixC4db "alice" false

/-- Store with a single account whose `last_seen_at` is 0. -/
def fixC7db : DB :=
  { accounts := [{ server_account_id := "1", acct := "a", last_seen_at := 0 }],
    statuses := [], personDocs := [], summaries := [] }

/-- Two fresh remote posts within the age window. -/
def fixR1 : ApiPost := { id := "r1", created_at := 0 }

/-- Second fresh remote post. -/
def fixR2 : ApiPost := { id := "r2", created_at := 0 }

/-- Sync run with `max_profile_statuses = 1` and one page of two new
posts: both are inserted before the max-count rule is evaluated. -/
def fixC10run : SyncResult :=
  sync_author (fun s => s) 92 1 0 [[fixR1, fixR2]] fixEmptyDb "alice" false

/-! ## Theorems -/

/-- C1: the claim says that on generation failure the previously stored
Summary row is left unchanged, the placeholder is never stored as a
cached-valid Summary, and no fingerprint update occurs.  The code cannot
do this: `OpenAIProvider.generate_summary` swallows the exception and
returns the placeholder output, and `Summarizer._process_account` then
deletes the old Summary and stores the placeholder under the freshly
computed fingerprint.  Evaluated at the concrete failure scenario: the old
Summary (fingerprint `"oldhash"`, headline `"Old headline"`) is gone, and
the single remaining Summary row carries the placeholder text cached under
the new fingerprint `"newhash"`, so a later run is a cache hit and never
retries generation. -/
theorem c1_generation_failure_caches_placeholder :
    fixC1run.generation_called = true ∧
    fixC1run.db.summaries =
      [{ account_acct := "alice", doc_hash := "newhash",
         headline := "Summary Unavailable", blurb := "Could not generate summary.",
         tags_json := "[]", llm_provider := "openai", llm_model := "gpt-4o",
         prompt_version := "1.0" }] ∧
    fixOldSummary ∉ fixC1run.db.summaries := by
  refine ⟨by decide, by decide, by decide⟩

/-- C2 counterexample: the claim says a post whose `created_at` equals the
cutoff date is excluded from fetching and storage.  In
`IngestionManager._sync_author` the age test is strict
(`created_at < cutoff_date`), so at `now = 86400` with
`max_profile_age_days = 1` (cutoff date 0) the remote post with
`created_at = 0` — exactly the cutoff — is inserted as a Post row. -/
theorem c2_boundary_post_is_stored :
    (∃ s ∈ fixC2run.db.statuses, s.remote_id = "p0" ∧ s.created_at = 86400 - 1 * 86400) ∧
    fixC2run.reason = StopReason.exhausted := by
  exact ⟨⟨{ remote_id := "p0", account_acct := "alice", created_at := 0,
            content_html := "", content_text := "" }, by decide, by decide, by decide⟩,
         by decide⟩

/-- C4 counterexample: the claim says that for every account state, a
second content sync run in succession with no new remote posts inserts
zero new Post rows *with the overlap-stop firing on the first page*.  At
the concrete state where the first run completed 60 seconds earlier
(`last_fetch_at = 100`, `now = 160`), the second non-forced call is
stopped by the 15-minute throttle gate: zero rows are inserted, but no
page is ever fetched and the overlap-stop does not fire. -/
theorem c4_second_run_throttled_not_overlap :
    fixC4run.db.statuses = fixC4db.statuses ∧
    fixC4run.reason = StopReason.throttled ∧
    fixC4run.reason ≠ StopReason.overlap ∧
    fixC4run.pages_consumed = 0 := by
  refine ⟨by decide, by decide, by decide, by decide⟩

/-- C7 counterexample: the claim says `shouldRefresh` returns false unless
the most recent `last_seen_at` is strictly older than 4 hours.  At exactly
4 hours (`now = 14400`, most recent `last_seen_at = 0`) the code's test
`delta < timedelta(hours=4)` fails and it returns true, while the claim's
description (`should_refresh_following_claim`) returns false. -/
theorem c7_exactly_four_hours_refreshes :
    should_refresh_following 14400 fixC7db false = true ∧
    should_refresh_following_claim 14400 fixC7db false = false := by
  refine ⟨by decide, by decide⟩

/-- C7 amended: `_should_refresh_following` returns true iff `force` is
set, or no account row exists, or the most recent `last_seen_at` across
all accounts is at least 4 hours old (the boundary of exactly 4 hours
triggers a refresh); it returns false only when the most recent
`last_seen_at` is strictly younger than 4 hours. -/
theorem c7_should_refresh_characterization (now : Time) (db : DB) (force : Bool) :
    should_refresh_following now db force = true ↔
      (force = true ∨ maxLastSeen db = none ∨
        ∃ t, maxLastSeen db = some t ∧ 4 * 3600 ≤ now - t) := by
  unfold should_refresh_following
  cases hf : force with
  | true => simp
  | false =>
    simp only [Bool.false_eq_true, if_false, false_or]
    cases h : maxLastSeen db with
    | none => simp
    | some t =>
      simp only [Option.some.injEq, reduceCtorEq, false_or]
      by_cases hlt : now - t < 4 * 3600
      · simp only [if_pos hlt, Bool.false_eq_true, false_iff]
        rintro ⟨t', rfl, hle⟩
        exact absurd hle (Int.not_le.mpr hlt)
      · simp only [if_neg hlt]
        constructor
        · intro _
          exact ⟨t, rfl, Int.not_lt.mp hlt⟩
        · intro _
          trivial

/-- Witness for the amended C7 characterization at a concrete input:
one account last seen at time 0, queried at time 20000 (more than 4
hours later) without force — the refresh fires. -/
theorem c7_should_refresh_witness :
    should_refresh_following 20000 fixC7db false = true :=
  (c7_should_refresh_characterization 20000 fixC7db false).mpr
    (Or.inr (Or.inr ⟨0, by decide, by decide⟩))

/-! ### Helper lemmas on `replaceFirst` -/

theorem find?_replaceFirst {α : Type} (p : α → Bool) (f : α → α)
    (hf : ∀ a, p a = true → p (f a) = true) :
    ∀ (l : List α) (a : α), l.find? p = some a →
      (replaceFirst p f l).find? p = some (f a) := by
  intro l
  induction l with
  | nil => intro a h; simp [List.find?] at h
  | cons b l ih =>
    intro a h
    by_cases hb : p b = true
    · rw [List.find?_cons_of_pos _ hb] at h
      cases h
      unfold replaceFirst
      rw [if_pos hb, List.find?_cons_of_pos _ (hf b hb)]
    · have hb' : p b = false := by simpa using hb
      rw [List.find?_cons_of_neg _ (by simp [hb'])] at h
      unfold replaceFirst
      rw [if_neg (by simp [hb']), List.find?_cons_of_neg _ (by simp [hb'])]
      exact ih a h

theorem mem_replaceFirst {α : Type} (p : α → Bool) (f : α → α) :
    ∀ (l : List α) (b : α), b ∈ l →
      b ∈ replaceFirst p f l ∨ (p b = true ∧ f b ∈ replaceFirst p f l) := by
  intro l
  induction l with
  | nil => intro b h; simp at h
  | cons a l ih =>
    intro b h
    by_cases ha : p a = true
    · unfold replaceFirst
      rw [if_pos ha]
      rcases List.mem_cons.mp h with rfl | hmem
      · exact Or.inr ⟨ha, List.mem_cons_self _ _⟩
      · exact Or.inl (List.mem_cons_of_mem _ hmem)
    · unfold replaceFirst
      rw [if_neg ha]
      rcases List.mem_cons.mp h with rfl | hmem
      · exact Or.inl (List.mem_cons_self _ _)
      · rcases ih b hmem with h1 | ⟨h1, h2⟩
        · exact Or.inl (List.mem_cons_of_mem _ h1)
        · exact Or.inr ⟨h1, List.mem_cons_of_mem _ h2⟩

theorem mem_replaceFirst_of_neg {α : Type} (p : α → Bool) (f : α → α) :
    ∀ (l : List α) (b : α), b ∈ l → p b = false → b ∈ replaceFirst p f l := by
  intro l
  induction l with
  | nil => intro b h; simp at h
  | cons a l ih =>
    intro b h hb
    unfold replaceFirst
    rcases List.mem_cons.mp h with rfl | hmem
    · rw [if_neg (by simp [hb])]
      exact List.mem_cons_self _ _
    · by_cases ha : p a = true
      · rw [if_pos ha]; exact List.mem_cons_of_mem _ hmem
      · rw [if_neg ha]; exact List.mem_cons_of_mem _ (ih b hmem hb)

/-! ### Structural lemmas on the pagination loop -/

/-- What one page's post loop does to the store: accounts, person
documents and summaries are untouched, the statuses table is extended by
a list `ext` of newly inserted rows, every inserted row is within the age
window, at most one row is inserted per remote post, and the fetched
counter counts exactly the insertions. -/
theorem processPosts_spec (normalize : String → String) (cutoff : Time) (acct : String) :
    ∀ (posts : List ApiPost) (db : DB) (f e : Nat),
      ∃ ext : List Status,
        (processPosts normalize cutoff acct db f e posts).outDb.accounts = db.accounts ∧
        (processPosts normalize cutoff acct db f e posts).outDb.personDocs = db.personDocs ∧
        (processPosts normalize cutoff acct db f e posts).outDb.summaries = db.summaries ∧
        (processPosts normalize cutoff acct db f e posts).outDb.statuses = db.statuses ++ ext ∧
        (processPosts normalize cutoff acct db f e posts).outFetched = f + ext.length ∧
        ext.length ≤ posts.length ∧
        ∀ s ∈ ext, cutoff ≤ s.created_at := by
  intro posts
  induction posts with
  | nil =>
    intro db f e
    exact ⟨[], rfl, rfl, rfl, by simp [processPosts, PageStep.outDb],
      by simp [processPosts, PageStep.outFetched], by simp, by simp⟩
  | cons post rest ih =>
    intro db f e
    by_cases h1 : post.created_at < cutoff
    · refine ⟨[], ?_, ?_, ?_, ?_, ?_, by simp, by simp⟩ <;>
        simp [processPosts, h1, PageStep.outDb, PageStep.outFetched]
    · by_cases h2 : post.reblog = true
      · obtain ⟨ext, ha, hp, hs, hst, hf, hlen, hcut⟩ := ih db f e
        refine ⟨ext, ?_, ?_, ?_, ?_, ?_, by simpa using Nat.le_succ_of_le hlen, hcut⟩ <;>
          simp only [processPosts, if_neg h1, if_pos h2] <;> assumption
      · have h2' : post.reblog = false := by simpa using h2
        by_cases h3 : statusExists db post.id = true
        · obtain ⟨ext, ha, hp, hs, hst, hf, hlen, hcut⟩ := ih db f (e + 1)
          refine ⟨ext, ?_, ?_, ?_, ?_, ?_, by simpa using Nat.le_succ_of_le hlen, hcut⟩ <;>
            simp only [processPosts, if_neg h1, h2', Bool.false_eq_true, if_false, if_pos h3] <;>
            assumption
        · have h3' : statusExists db post.id = false := by simpa using h3
          obtain ⟨ext, ha, hp, hs, hst, hf, hlen, hcut⟩ :=
            ih (insertStatus normalize acct post db) (f + 1) e
          have hins :
              processPosts normalize cutoff acct db f e (post :: rest) =
                processPosts normalize cutoff acct (insertStatus normalize acct post db)
                  (f + 1) e rest := by
            simp only [processPosts, if_neg h1, h2', Bool.false_eq_true, if_false, h3']
          refine ⟨{ remote_id := post.id, account_acct := acct,
                    created_at := post.created_at, content_html := post.content,
                    content_text := normalize post.content, url := post.url,
                    is_reply := post.in_reply_to_id.isSome,
                    in_reply_to_id := if post.in_reply_to_id.isSome then post.in_reply_to_id else none,
                    visibility := post.visibility } :: ext, ?_, ?_, ?_, ?_, ?_, ?_, ?_⟩
          · rw [hins]; exact ha
          · rw [hins]; exact hp
          · rw [hins]; exact hs
          · rw [hins, hst]; simp [insertStatus]
          · rw [hins, hf]; simp [Nat.add_comm, Nat.add_assoc, Nat.add_left_comm]
          · simpa using Nat.succ_le_succ hlen
          · intro s hsmem
            rcases List.mem_cons.mp hsmem with rfl | hsmem
            · exact Int.not_lt.mp h1
            · exact hcut s hsmem

/-- What the pagination loop does to the store: accounts, person
documents and summaries are untouched, statuses are extended by a list of
in-window rows counted by the fetched counter. -/
theorem syncPages_spec (normalize : String → String) (force_fetch : Bool)
    (max_statuses : Nat) (cutoff : Time) (acct : String) :
    ∀ (pages : List (List ApiPost)) (db : DB) (f : Nat),
      ∃ ext : List Status,
        (syncPages normalize force_fetch max_statuses cutoff acct db f pages).db.accounts =
          db.accounts ∧
        (syncPages normalize force_fetch max_statuses cutoff acct db f pages).db.personDocs =
          db.personDocs ∧
        (syncPages normalize force_fetch max_statuses cutoff acct db f pages).db.summaries =
          db.summaries ∧
        (syncPages normalize force_fetch max_statuses cutoff acct db f pages).db.statuses =
          db.statuses ++ ext ∧
        (syncPages normalize force_fetch max_statuses cutoff acct db f pages).fetched =
          f + ext.length ∧
        ∀ s ∈ ext, cutoff ≤ s.created_at := by
  intro pages
  induction pages with
  | nil =>
    intro db f
    exact ⟨[], rfl, rfl, rfl, by simp [syncPages], by simp [syncPages], by simp⟩
  | cons page rest ih =>
    intro db f
    obtain ⟨ext1, ha1, hp1, hs1, hst1, hf1, _, hcut1⟩ :=
      processPosts_spec normalize cutoff acct page db f 0
    rcases hP : processPosts normalize cutoff acct db f 0 page with ⟨db1, f1⟩ | ⟨db1, f1, pe⟩
    · rw [hP] at ha1 hp1 hs1 hst1 hf1
      simp only [PageStep.outDb, PageStep.outFetched] at ha1 hp1 hs1 hst1 hf1
      refine ⟨ext1, ?_, ?_, ?_, ?_, ?_, hcut1⟩ <;> simp only [syncPages, hP] <;> assumption
    · rw [hP] at ha1 hp1 hs1 hst1 hf1
      simp only [PageStep.outDb, PageStep.outFetched] at ha1 hp1 hs1 hst1 hf1
      by_cases hov : force_fetch = false ∧ 0 < page.length ∧ pe = page.length
      · refine ⟨ext1, ?_, ?_, ?_, ?_, ?_, hcut1⟩ <;>
          simp only [syncPages, hP, if_pos hov] <;> assumption
      · by_cases hmax : max_statuses ≤ f1
        · refine ⟨ext1, ?_, ?_, ?_, ?_, ?_, hcut1⟩ <;>
            simp only [syncPages, hP, if_neg hov, if_pos hmax] <;> assumption
        · obtain ⟨ext2, ha2, hp2, hs2, hst2, hf2, hcut2⟩ := ih db1 f1
          refine ⟨ext1 ++ ext2, ?_, ?_, ?_, ?_, ?_, ?_⟩ <;>
            first
            | (simp only [syncPages, hP, if_neg hov, if_neg hmax]
               first
               | rw [ha2, ha1]
               | rw [hp2, hp1]
               | rw [hs2, hs1]
               | rw [hst2, hst1, List.append_assoc]
               | rw [hf2, hf1, List.length_append, Nat.add_assoc])
            | skip
          · intro s hs
            rcases List.mem_append.mp hs with h | h
            · exact hcut1 s h
            · exact hcut2 s h

/-- If every post of every page is already stored, the pagination loop
inserts nothing: the store and the fetched counter are unchanged. -/
theorem processPosts_noinsert (normalize : String → String) (cutoff : Time) (acct : String) :
    ∀ (posts : List ApiPost) (db : DB) (f e : Nat),
      (∀ p ∈ posts, statusExists db p.id = true) →
      (processPosts normalize cutoff acct db f e posts).outDb = db ∧
      (processPosts normalize cutoff acct db f e posts).outFetched = f := by
  intro posts
  induction posts with
  | nil => intro db f e _; exact ⟨rfl, rfl⟩
  | cons post rest ih =>
    intro db f e hall
    have hpost := hall post (List.mem_cons_self _ _)
    have hrest : ∀ p ∈ rest, statusExists db p.id = true :=
      fun p hp => hall p (List.mem_cons_of_mem _ hp)
    by_cases h1 : post.created_at < cutoff
    · constructor <;> simp [processPosts, h1, PageStep.outDb, PageStep.outFetched]
    · by_cases h2 : post.reblog = true
      · have := ih db f e hrest
        constructor <;> simp only [processPosts, if_neg h1, if_pos h2] <;> tauto
      · have h2' : post.reblog = false := by simpa using h2
        have := ih db f (e + 1) hrest
        constructor <;>
          simp only [processPosts, if_neg h1, h2', Bool.false_eq_true, if_false,
            if_pos hpost] <;> tauto

/-- If every post of a page is in-window, a non-boost, and already stored,
the page loop completes with `page_existing_count` equal to the page
length and no change to the store. -/
theorem processPosts_all_existing (normalize : String → String) (cutoff : Time) (acct : String) :
    ∀ (posts : List ApiPost) (db : DB) (f e : Nat),
      (∀ p ∈ posts, ¬(p.created_at < cutoff) ∧ p.reblog = false ∧ statusExists db p.id = true) →
      processPosts normalize cutoff acct db f e posts = .completed db f (e + posts.length) := by
  intro posts
  induction posts with
  | nil => intro db f e _; simp [processPosts]
  | cons post rest ih =>
    intro db f e hall
    obtain ⟨h1, h2, h3⟩ := hall post (List.mem_cons_self _ _)
    have hrest : ∀ p ∈ rest,
        ¬(p.created_at < cutoff) ∧ p.reblog = false ∧ statusExists db p.id = true :=
      fun p hp => hall p (List.mem_cons_of_mem _ hp)
    rw [processPosts, if_neg h1]
    simp only [h2, Bool.false_eq_true, if_false, if_pos h3]
    rw [ih db f (e + 1) hrest]
    simp only [List.length_cons]
    congr 1
    omega

/-- If every post of every page is already stored, the whole pagination
loop leaves the store unchanged and fetches nothing. -/
theorem syncPages_all_existing (normalize : String → String) (force_fetch : Bool)
    (max_statuses : Nat) (cutoff : Time) (acct : String) :
    ∀ (pages : List (List ApiPost)) (db : DB) (f : Nat),
      (∀ page ∈ pages, ∀ p ∈ page, statusExists db p.id = true) →
      (syncPages normalize force_fetch max_statuses cutoff acct db f pages).db = db ∧
      (syncPages normalize force_fetch max_statuses cutoff acct db f pages).fetched = f := by
  intro pages
  induction pages with
  | nil => intro db f _; exact ⟨rfl, rfl⟩
  | cons page rest ih =>
    intro db f hall
    have hpage := hall page (List.mem_cons_self _ _)
    have hrest : ∀ pg ∈ rest, ∀ p ∈ pg, statusExists db p.id = true :=
      fun pg hpg => hall pg (List.mem_cons_of_mem _ hpg)
    have hni := processPosts_noinsert normalize cutoff acct page db f 0 hpage
    rcases hP : processPosts normalize cutoff acct db f 0 page with ⟨db1, f1⟩ | ⟨db1, f1, pe⟩
    · rw [hP] at hni
      simp only [PageStep.outDb, PageStep.outFetched] at hni
      obtain ⟨rfl, rfl⟩ := hni
      constructor <;> simp [syncPages, hP]
    · rw [hP] at hni
      simp only [PageStep.outDb, PageStep.outFetched] at hni
      obtain ⟨rfl, rfl⟩ := hni
      by_cases hov : force_fetch = false ∧ 0 < page.length ∧ pe = page.length
      · constructor <;> simp [syncPages, hP, if_pos hov]
      · by_cases hmax : max_statuses ≤ f1
        · constructor <;> simp [syncPages, hP, if_neg hov, if_pos hmax]
        · have := ih db1 f1 hrest
          constructor <;> simp only [syncPages, hP, if_neg hov, if_neg hmax] <;> tauto

/-- The max-count rule is only evaluated at page boundaries: as long as
the loop enters a page with a fetched count strictly below the maximum,
the final fetched count is bounded by `max_statuses - 1` plus one full
page of at most 40 posts. -/
theorem syncPages_fetched_bound (normalize : String → String) (force_fetch : Bool)
    (max_statuses : Nat) (cutoff : Time) (acct : String) :
    ∀ (pages : List (List ApiPost)) (db : DB) (f : Nat),
      f < max_statuses →
      (∀ page ∈ pages, page.length ≤ 40) →
      (syncPages normalize force_fetch max_statuses cutoff acct db f pages).fetched ≤
        max_statuses - 1 + 40 := by
  intro pages
  induction pages with
  | nil =>
    intro db f hf _
    simp only [syncPages]
    omega
  | cons page rest ih =>
    intro db f hf hlen
    have hpage : page.length ≤ 40 := hlen page (List.mem_cons_self _ _)
    have hrest : ∀ pg ∈ rest, pg.length ≤ 40 :=
      fun pg hpg => hlen pg (List.mem_cons_of_mem _ hpg)
    obtain ⟨ext, _, _, _, _, hfe, hle, _⟩ := processPosts_spec normalize cutoff acct page db f 0
    rcases hP : processPosts normalize cutoff acct db f 0 page with ⟨db1, f1⟩ | ⟨db1, f1, pe⟩
    · rw [hP] at hfe
      simp only [PageStep.outFetched] at hfe
      simp only [syncPages, hP]
      omega
    · rw [hP] at hfe
      simp only [PageStep.outFetched] at hfe
      by_cases hov : force_fetch = false ∧ 0 < page.length ∧ pe = page.length
      · simp only [syncPages, hP, if_pos hov]
        omega
      · by_cases hmax : max_statuses ≤ f1
        · simp only [syncPages, hP, if_neg hov, if_pos hmax]
          omega
        · have hlt : f1 < max_statuses := Nat.lt_of_not_le hmax
          have := ih db1 f1 hlt hrest
          simp only [syncPages, hP, if_neg hov, if_neg hmax]
          exact this

/-- The per-post age cutoff returns immediately mid-page: once a post
older than the cutoff is reached, the posts after it in the page are
irrelevant. -/
theorem processPosts_cutoff_tail_irrelevant (normalize : String → String)
    (cutoff : Time) (acct : String) :
    ∀ (pre : List ApiPost) (old : ApiPost) (tail1 tail2 : List ApiPost) (db : DB) (f e : Nat),
      old.created_at < cutoff →
      processPosts normalize cutoff acct db f e (pre ++ old :: tail1) =
        processPosts normalize cutoff acct db f e (pre ++ old :: tail2) := by
  intro pre
  induction pre with
  | nil =>
    intro old tail1 tail2 db f e hold
    simp [processPosts, hold]
  | cons post pre ih =>
    intro old tail1 tail2 db f e hold
    by_cases h1 : post.created_at < cutoff
    · simp [processPosts, h1]
    · by_cases h2 : post.reblog = true
      · simp only [List.cons_append, processPosts, if_neg h1, if_pos h2]
        exact ih old tail1 tail2 db f e hold
      · have h2' : post.reblog = false := by simpa using h2
        by_cases h3 : statusExists db post.id = true
        · simp only [List.cons_append, processPosts, if_neg h1, h2', Bool.false_eq_true,
            if_false, if_pos h3]
          exact ih old tail1 tail2 db f (e + 1) hold
        · have h3' : statusExists db post.id = false := by simpa using h3
          simp only [List.cons_append, processPosts, if_neg h1, h2', Bool.false_eq_true,
            if_false, h3']
          exact ih old tail1 tail2 (insertStatus normalize acct post db) (f + 1) e hold

/-- Marking an account synced touches only the accounts table. -/
theorem mark_account_synced_statuses (now : Time) (acct : String) (d : DB) :
    (mark_account_synced now acct d).statuses = d.statuses := rfl

/-- Already-stored statuses survive the page loop. -/
theorem processPosts_statuses_mono (normalize : String → String) (cutoff : Time)
    (acct : String) (posts : List ApiPost) (db : DB) (f e : Nat) (s : Status)
    (h : s ∈ db.statuses) :
    s ∈ (processPosts normalize cutoff acct db f e posts).outDb.statuses := by
  obtain ⟨ext, _, _, _, hst, _, _, _⟩ := processPosts_spec normalize cutoff acct posts db f e
  rw [hst]
  exact List.mem_append_left _ h

/-- Already-stored statuses survive the pagination loop. -/
theorem syncPages_statuses_mono (normalize : String → String) (force_fetch : Bool)
    (max_statuses : Nat) (cutoff : Time) (acct : String) (pages : List (List ApiPost))
    (db : DB) (f : Nat) (s : Status) (h : s ∈ db.statuses) :
    s ∈ (syncPages normalize force_fetch max_statuses cutoff acct db f pages).db.statuses := by
  obtain ⟨ext, _, _, _, hst, _, _⟩ :=
    syncPages_spec normalize force_fetch max_statuses cutoff acct pages db f
  rw [hst]
  exact List.mem_append_left _ h

/-- A status present after the first page's post loop is present in the
result of the whole pagination loop starting at that page. -/
theorem syncPages_cons_mem (normalize : String → String) (force_fetch : Bool)
    (max_statuses : Nat) (cutoff : Time) (acct : String) (page : List ApiPost)
    (rest : List (List ApiPost)) (db : DB) (f : Nat) (s : Status)
    (h : s ∈ (processPosts normalize cutoff acct db f 0 page).outDb.statuses) :
    s ∈ (syncPages normalize force_fetch max_statuses cutoff acct db f
          (page :: rest)).db.statuses := by
  rcases hP : processPosts normalize cutoff acct db f 0 page with ⟨db1, f1⟩ | ⟨db1, f1, pe⟩
  · rw [hP] at h
    simp only [PageStep.outDb] at h
    simpa [syncPages, hP] using h
  · rw [hP] at h
    simp only [PageStep.outDb] at h
    by_cases hov : force_fetch = false ∧ 0 < page.length ∧ pe = page.length
    · simpa [syncPages, hP, if_pos hov] using h
    · by_cases hmax : max_statuses ≤ f1
      · simpa [syncPages, hP, if_neg hov, if_pos hmax] using h
      · simp only [syncPages, hP, if_neg hov, if_neg hmax]
        exact syncPages_statuses_mono normalize force_fetch max_statuses cutoff acct
          rest db1 f1 s h

/-- C2 amended: the age boundary is in-window.  (1) Exclusion: every
status present after a `_sync_author` call either was already stored or
has `created_at` at or after the cutoff date — posts strictly older than
the cutoff are never stored.  (2) Inclusion at the boundary: if the first
post of the first page is a new non-boost post with `created_at` at or
after the cutoff date (in particular exactly equal to it), and the account
exists and is not throttled, it is stored. -/
theorem c2_cutoff_strict_boundary :
    (∀ (normalize : String → String) (max_age_days max_statuses : Nat) (now : Time)
       (pages : List (List ApiPost)) (db : DB) (acct : String) (force_fetch : Bool)
       (s : Status),
       s ∈ (sync_author normalize max_age_days max_statuses now pages db acct
              force_fetch).db.statuses →
       s ∈ db.statuses ∨ now - (max_age_days : Int) * 86400 ≤ s.created_at) ∧
    (∀ (normalize : String → String) (max_age_days max_statuses : Nat) (now : Time)
       (post : ApiPost) (page_tail : List ApiPost) (morePages : List (List ApiPost))
       (db : DB) (acct : String) (a : Account) (force_fetch : Bool),
       db.accounts.find? (fun x => x.acct == acct) = some a →
       throttle_gate now force_fetch a = false →
       now - (max_age_days : Int) * 86400 ≤ post.created_at →
       post.reblog = false →
       statusExists db post.id = false →
       ∃ s ∈ (sync_author normalize max_age_days max_statuses now
                ((post :: page_tail) :: morePages) db acct force_fetch).db.statuses,
         s.remote_id = post.id ∧ s.created_at = post.created_at) := by
  constructor
  · intro normalize max_age_days max_statuses now pages db acct force_fetch s hs
    rcases hF : db.accounts.find? (fun x => x.acct == acct) with _ | a
    · simp only [sync_author, hF] at hs
      exact Or.inl hs
    · simp only [sync_author, hF] at hs
      by_cases hT : throttle_gate now force_fetch a = true
      · rw [if_pos hT] at hs
        exact Or.inl hs
      · rw [if_neg hT] at hs
        simp only [mark_account_synced_statuses] at hs
        obtain ⟨ext, _, _, _, hst, _, hcut⟩ :=
          syncPages_spec normalize force_fetch max_statuses
            (now - (max_age_days : Int) * 86400) acct pages db 0
        rw [hst] at hs
        rcases List.mem_append.mp hs with h | h
        · exact Or.inl h
        · exact Or.inr (hcut s h)
  · intro normalize max_age_days max_statuses now post page_tail morePages db acct a
      force_fetch hF hT hcut hreblog hnew
    simp only [sync_author, hF]
    rw [if_neg (by simp [hT])]
    simp only [mark_account_synced_statuses]
    have hstep :
        processPosts normalize (now - (max_age_days : Int) * 86400) acct db 0 0
            (post :: page_tail) =
          processPosts normalize (now - (max_age_days : Int) * 86400) acct
            (insertStatus normalize acct post db) 1 0 page_tail := by
      rw [processPosts, if_neg (Int.not_lt.mpr hcut)]
      simp only [hreblog, Bool.false_eq_true, if_false, hnew]
    refine ⟨{ remote_id := post.id, account_acct := acct, created_at := post.created_at,
              content_html := post.content, content_text := normalize post.content,
              url := post.url, is_reply := post.in_reply_to_id.isSome,
              in_reply_to_id := if post.in_reply_to_id.isSome then post.in_reply_to_id else none,
              visibility := post.visibility }, ?_, rfl, rfl⟩
    apply syncPages_cons_mem
    rw [hstep]
    apply processPosts_statuses_mono
    simp [insertStatus]

/-- Witness for the C2 amended inclusion part: the boundary post of the
concrete boundary scenario is stored with `created_at` exactly equal to
the cutoff date. -/
theorem c2_cutoff_strict_boundary_witness :
    ∃ s ∈ (sync_author (fun s => s) 1 500 86400 [[fixBoundaryPost]] fixEmptyDb "alice"
            false).db.statuses,
      s.remote_id = fixBoundaryPost.id ∧ s.created_at = fixBoundaryPost.created_at :=
  c2_cutoff_strict_boundary.2 (fun s => s) 1 500 86400 fixBoundaryPost [] [] fixEmptyDb
    "alice" fixAlice false (by decide) (by decide) (by decide) (by decide) (by decide)

/-- C3: the three stop conditions are checked in order — age-cutoff (per
post, returning immediately mid-page), then overlap-stop (per page, firing
iff not forced, the page was non-empty and every post already existed),
then max-count (per page) — and the first satisfied condition wins;
whichever condition fires, the account is then marked synced
(`last_fetch_at = now`), including on the cutoff-triggered early return.
Conjuncts: (1) after a post older than the cutoff, the rest of the page is
irrelevant (immediate mid-page return); (2) a cutoff hit in a page stops
pagination with reason `cutoff` and consumes no later page, regardless of
the page-level conditions; (3) if the page completed and the overlap
condition holds, pagination stops with reason `overlap` even when the
max-count condition also holds; (4) if the page completed, overlap does
not hold and the max count is reached, pagination stops with reason
`maxCount`; (5) whenever the account exists and the throttle gate does not
skip — every case in which some stop condition fires, the cutoff return
included — the account's `last_fetch_at` is set to `now`. -/
theorem c3_stop_condition_precedence :
    (∀ (normalize : String → String) (cutoff : Time) (acct : String)
       (pre : List ApiPost) (old : ApiPost) (tail1 tail2 : List ApiPost)
       (db : DB) (f e : Nat),
       old.created_at < cutoff →
       processPosts normalize cutoff acct db f e (pre ++ old :: tail1) =
         processPosts normalize cutoff acct db f e (pre ++ old :: tail2)) ∧
    (∀ (normalize : String → String) (force_fetch : Bool) (max_statuses : Nat)
       (cutoff : Time) (acct : String) (page : List ApiPost)
       (rest : List (List ApiPost)) (db db1 : DB) (f f1 : Nat),
       processPosts normalize cutoff acct db f 0 page = .cutoffHit db1 f1 →
       syncPages normalize force_fetch max_statuses cutoff acct db f (page :: rest) =
         ⟨db1, f1, .cutoff, 1⟩) ∧
    (∀ (normalize : String → String) (max_statuses : Nat)
       (cutoff : Time) (acct : String) (page : List ApiPost)
       (rest : List (List ApiPost)) (db db1 : DB) (f f1 pe : Nat),
       processPosts normalize cutoff acct db f 0 page = .completed db1 f1 pe →
       0 < page.length →
       pe = page.length →
       syncPages normalize false max_statuses cutoff acct db f (page :: rest) =
         ⟨db1, f1, .overlap, 1⟩) ∧
    (∀ (normalize : String → String) (force_fetch : Bool) (max_statuses : Nat)
       (cutoff : Time) (acct : String) (page : List ApiPost)
       (rest : List (List ApiPost)) (db db1 : DB) (f f1 pe : Nat),
       processPosts normalize cutoff acct db f 0 page = .completed db1 f1 pe →
       ¬(force_fetch = false ∧ 0 < page.length ∧ pe = page.length) →
       max_statuses ≤ f1 →
       syncPages normalize force_fetch max_statuses cutoff acct db f (page :: rest) =
         ⟨db1, f1, .maxCount, 1⟩) ∧
    (∀ (normalize : String → String) (max_age_days max_statuses : Nat) (now : Time)
       (pages : List (List ApiPost)) (db : DB) (acct : String) (a : Account)
       (force_fetch : Bool),
       db.accounts.find? (fun x => x.acct == acct) = some a →
       throttle_gate now force_fetch a = false →
       ∃ aNew, (sync_author normalize max_age_days max_statuses now pages db acct
                  force_fetch).db.accounts.find? (fun x => x.acct == acct) = some aNew ∧
         aNew.last_fetch_at = some now) := by
  refine ⟨processPosts_cutoff_tail_irrelevant, ?_, ?_, ?_, ?_⟩
  · intro normalize force_fetch max_statuses cutoff acct page rest db db1 f f1 hP
    simp [syncPages, hP]
  · intro normalize max_statuses cutoff acct page rest db db1 f f1 pe hP hpos hpe
    simp only [syncPages, hP]
    rw [if_pos (show True ∧ 0 < page.length ∧ pe = page.length from ⟨trivial, hpos, hpe⟩)]
  · intro normalize force_fetch max_statuses cutoff acct page rest db db1 f f1 pe hP hov hmax
    simp [syncPages, hP, if_neg hov, if_pos hmax]
  · intro normalize max_age_days max_statuses now pages db acct a force_fetch hF hT
    simp only [sync_author, hF]
    rw [if_neg (by simp [hT])]
    obtain ⟨ext, hacc, _, _, _, _, _⟩ :=
      syncPages_spec normalize force_fetch max_statuses
        (now - (max_age_days : Int) * 86400) acct pages db 0
    refine ⟨{ a with last_fetch_at := some now }, ?_, rfl⟩
    unfold mark_account_synced
    simp only [hacc]
    exact find?_replaceFirst (fun x => x.acct == acct)
      (fun x => { x with last_fetch_at := some now }) (fun x hx => hx) db.accounts a hF

/-- Witness for C3 at concrete inputs: (2) a page whose first post is
older than the cutoff stops the boundary-scenario pagination with reason
`cutoff`; (5) the concrete boundary sync marks `alice` synced at
`now = 86400`. -/
theorem c3_stop_condition_precedence_witness :
    syncPages (fun s => s) false 500 10 "alice" fixEmptyDb 0
        [[{ id := "pold", created_at := 3 }]] =
      ⟨fixEmptyDb, 0, .cutoff, 1⟩ ∧
    ∃ aNew, (sync_author (fun s => s) 1 500 86400 [[fixBoundaryPost]] fixEmptyDb "alice"
               false).db.accounts.find? (fun x => x.acct == "alice") = some aNew ∧
      aNew.last_fetch_at = some 86400 :=
  ⟨c3_stop_condition_precedence.2.1 (fun s => s) false 500 10 "alice"
      [{ id := "pold", created_at := 3 }] [] fixEmptyDb fixEmptyDb 0 0 (by decide),
   c3_stop_condition_precedence.2.2.2.2 (fun s => s) 1 500 86400 [[fixBoundaryPost]]
      fixEmptyDb "alice" fixAlice false (by decide) (by decide)⟩

/-- C4 amended: (1) idempotence of the Post table — whenever the remote
source returns only posts that are already stored locally, a
`_sync_author` call inserts zero new Post rows, in every account state
(throttled, missing, forced or not); (2) the overlap-stop fires on the
first page when additionally the account exists, the throttle gate does
not skip it, the call is not forced, and the non-empty first page consists
of in-window non-boost posts (a second run within 15 minutes is instead
skipped by the throttle gate, inserting zero rows without fetching). -/
theorem c4_idempotent_second_sync :
    (∀ (normalize : String → String) (max_age_days max_statuses : Nat) (now : Time)
       (pages : List (List ApiPost)) (db : DB) (acct : String) (force_fetch : Bool),
       (∀ page ∈ pages, ∀ p ∈ page, statusExists db p.id = true) →
       (sync_author normalize max_age_days max_statuses now pages db acct
          force_fetch).db.statuses = db.statuses) ∧
    (∀ (normalize : String → String) (max_age_days max_statuses : Nat) (now : Time)
       (post : ApiPost) (page_tail : List ApiPost) (rest : List (List ApiPost))
       (db : DB) (acct : String) (a : Account),
       db.accounts.find? (fun x => x.acct == acct) = some a →
       throttle_gate now false a = false →
       (∀ p ∈ post :: page_tail,
         ¬(p.created_at < now - (max_age_days : Int) * 86400) ∧
         p.reblog = false ∧ statusExists db p.id = true) →
       (sync_author normalize max_age_days max_statuses now ((post :: page_tail) :: rest)
          db acct false).reason = .overlap ∧
       (sync_author normalize max_age_days max_statuses now ((post :: page_tail) :: rest)
          db acct false).pages_consumed = 1) := by
  constructor
  · intro normalize max_age_days max_statuses now pages db acct force_fetch hall
    rcases hF : db.accounts.find? (fun x => x.acct == acct) with _ | a
    · simp [sync_author, hF]
    · simp only [sync_author, hF]
      by_cases hT : throttle_gate now force_fetch a = true
      · rw [if_pos hT]
      · rw [if_neg hT]
        simp only [mark_account_synced_statuses]
        have := syncPages_all_existing normalize force_fetch max_statuses
          (now - (max_age_days : Int) * 86400) acct pages db 0 hall
        rw [this.1]
  · intro normalize max_age_days max_statuses now post page_tail rest db acct a hF hT hall
    have hP := processPosts_all_existing normalize (now - (max_age_days : Int) * 86400)
      acct (post :: page_tail) db 0 0 hall
    have hov : (false = false ∧ 0 < (post :: page_tail).length ∧
        0 + (post :: page_tail).length = (post :: page_tail).length) := by
      refine ⟨rfl, ?_, by omega⟩
      simp
    constructor <;>
      · simp only [sync_author, hF]
        rw [if_neg (by simp [hT])]
        simp [syncPages, hP, if_pos hov]

/-- Witness for C4 amended at a concrete input: re-syncing `alice` 20
minutes after the first fetch, when the remote returns only the stored
post `q1`, keeps the Post table unchanged and stops with the overlap rule
on page 1. -/
theorem c4_idempotent_second_sync_witness :
    (sync_author (fun s => s) 92 500 1300 [[fixQ1]] fixC4db "alice" false).db.statuses =
      fixC4db.statuses ∧
    (sync_author (fun s => s) 92 500 1300 [[fixQ1]] fixC4db "alice" false).reason =
      .overlap ∧
    (sync_author (fun s => s) 92 500 1300 [[fixQ1]] fixC4db "alice" false).pages_consumed =
      1 :=
  ⟨c4_idempotent_second_sync.1 (fun s => s) 92 500 1300 [[fixQ1]] fixC4db "alice" false
      (by decide),
   (c4_idempotent_second_sync.2 (fun s => s) 92 500 1300 fixQ1 [] [] fixC4db "alice"
      fixAliceFetched (by decide) (by decide) (by decide)).1,
   (c4_idempotent_second_sync.2 (fun s => s) 92 500 1300 fixQ1 [] [] fixC4db "alice"
      fixAliceFetched (by decide) (by decide) (by decide)).2⟩

/-- C10: the max-count rule is evaluated only at page boundaries.  (1) For
every input whose pages respect the remote page size of 40 and any
configured `max_profile_statuses ≥ 1`, the number of newly inserted Post
rows equals the reported fetched count and is bounded by
`max_profile_statuses + 40 - 1`.  (2) The count can exceed
`max_profile_statuses`: with `max_profile_statuses = 1` and a single page
of two new posts, both are inserted before the rule is checked. -/
theorem c10_max_count_page_boundary :
    (∀ (normalize : String → String) (max_age_days max_statuses : Nat) (now : Time)
       (pages : List (List ApiPost)) (db : DB) (acct : String) (force_fetch : Bool),
       1 ≤ max_statuses →
       (∀ page ∈ pages, page.length ≤ 40) →
       (sync_author normalize max_age_days max_statuses now pages db acct
          force_fetch).db.statuses.length =
         db.statuses.length +
           (sync_author normalize max_age_days max_statuses now pages db acct
              force_fetch).fetched_count ∧
       (sync_author normalize max_age_days max_statuses now pages db acct
          force_fetch).fetched_count ≤ max_statuses + 40 - 1) ∧
    1 < fixC10run.fetched_count ∧ fixC10run.fetched_count ≤ 1 + 40 - 1 := by
  refine ⟨?_, by decide, by decide⟩
  intro normalize max_age_days max_statuses now pages db acct force_fetch hmax hlen
  rcases hF : db.accounts.find? (fun x => x.acct == acct) with _ | a
  · constructor <;> simp [sync_author, hF]
  · by_cases hT : throttle_gate now force_fetch a = true
    · constructor <;> simp [sync_author, hF, if_pos hT]
    · obtain ⟨ext, _, _, _, hst, hfe, _⟩ :=
        syncPages_spec normalize force_fetch max_statuses
          (now - (max_age_days : Int) * 86400) acct pages db 0
      have hbound := syncPages_fetched_bound normalize force_fetch max_statuses
        (now - (max_age_days : Int) * 86400) acct pages db 0 (by omega) hlen
      constructor
      · simp only [sync_author, hF]
        rw [if_neg hT]
        simp only [mark_account_synced_statuses]
        rw [hst, hfe, List.length_append]
        omega
      · simp only [sync_author, hF]
        rw [if_neg hT]
        simp only []
        omega

/-- Witness for the C10 bound at a concrete input: the
`max_profile_statuses = 1` run with one page of two posts inserts both
rows and stays within the `1 + 40 - 1` bound. -/
theorem c10_max_count_page_boundary_witness :
    (sync_author (fun s => s) 92 1 0 [[fixR1, fixR2]] fixEmptyDb "alice"
       false).db.statuses.length =
      fixEmptyDb.statuses.length +
        (sync_author (fun s => s) 92 1 0 [[fixR1, fixR2]] fixEmptyDb "alice"
           false).fetched_count ∧
    (sync_author (fun s => s) 92 1 0 [[fixR1, fixR2]] fixEmptyDb "alice"
       false).fetched_count ≤ 1 + 40 - 1 :=
  c10_max_count_page_boundary.1 (fun s => s) 92 1 0 [[fixR1, fixR2]] fixEmptyDb "alice"
    false (by decide) (by decide)

/-- C6: the throttle gate.  (1) Calling `_sync_author` without
`force_fetch` for an account whose last completed fetch is strictly less
than 15 minutes old skips the account entirely: the store is returned
unchanged and the remote pagination source is never invoked.  (2) With
`force_fetch` set, the fetch is performed (the pagination source is
invoked) regardless of how recently the account was synced. -/
theorem c6_throttle_gate_behavior :
    (∀ (normalize : String → String) (max_age_days max_statuses : Nat) (now : Time)
       (pages : List (List ApiPost)) (db : DB) (acct : String) (a : Account) (t : Time),
       db.accounts.find? (fun x => x.acct == acct) = some a →
       a.last_fetch_at = some t →
       now - t < 15 * 60 →
       sync_author normalize max_age_days max_statuses now pages db acct false =
         ⟨db, .throttled, 0, 0, false⟩) ∧
    (∀ (normalize : String → String) (max_age_days max_statuses : Nat) (now : Time)
       (pages : List (List ApiPost)) (db : DB) (acct : String) (a : Account),
       db.accounts.find? (fun x => x.acct == acct) = some a →
       (sync_author normalize max_age_days max_statuses now pages db acct true).network_used =
         true) := by
  constructor
  · intro normalize max_age_days max_statuses now pages db acct a t hfind hlast hlt
    unfold sync_author
    rw [hfind]
    have hgate : throttle_gate now false a = true := by
      unfold throttle_gate
      rw [hlast]
      simp only [Bool.not_false, Bool.true_and, decide_eq_true_eq]
      exact hlt
    simp [hgate]
  · intro normalize max_age_days max_statuses now pages db acct a hfind
    unfold sync_author
    rw [hfind]
    have hgate : throttle_gate now true a = false := by
      unfold throttle_gate
      simp
    simp [hgate]

/-- Witness for C6 at a concrete input: `alice` completed a fetch at time
100; at time 160 a non-forced call is skipped with zero network use, and
a forced call reaches the pagination source. -/
theorem c6_throttle_gate_witness :
    sync_author (fun s => s) 92 500 160 [[fixQ1]] fixC4db "alice" false =
      ⟨fixC4db, .throttled, 0, 0, false⟩ ∧
    (sync_author (fun s => s) 92 500 160 [[fixQ1]] fixC4db "alice" true).network_used = true :=
  ⟨c6_throttle_gate_behavior.1 (fun s => s) 92 500 160 [[fixQ1]] fixC4db "alice"
      fixAliceFetched 100 (by decide) (by decide) (by decide),
   c6_throttle_gate_behavior.2 (fun s => s) 92 500 160 [[fixQ1]] fixC4db "alice"
      fixAliceFetched (by decide)⟩

/-! ### Lemmas on the Derived-Document Cache -/

/-- `_process_account` never touches the statuses table. -/
theorem process_account_statuses (hash : String → String) (dumps : List String → String)
    (fmtTime : Time → String) (llm_provider llm_model : String)
    (provider_configured : Bool) (api_result : Option SummaryOutput)
    (max_statuses : Nat) (db : DB) (account : Account) (force : Bool) :
    (process_account hash dumps fmtTime llm_provider llm_model provider_configured
      api_result max_statuses db account force).db.statuses = db.statuses := by
  simp only [process_account]
  split
  · rfl
  · split
    · rfl
    · split
      · rfl
      · rfl

/-- The status selection reads only the statuses table. -/
theorem select_statuses_congr (max_statuses : Nat) (acct : String) (db1 db2 : DB)
    (h : db1.statuses = db2.statuses) :
    select_statuses max_statuses db1 acct = select_statuses max_statuses db2 acct := by
  unfold select_statuses
  rw [h]

/-- Document assembly reads only the statuses table and the account row. -/
theorem build_doc_text_congr (fmtTime : Time → String) (max_statuses : Nat)
    (db1 db2 : DB) (account : Account) (h : db1.statuses = db2.statuses) :
    build_doc_text fmtTime max_statuses db1 account =
      build_doc_text fmtTime max_statuses db2 account := by
  unfold build_doc_text
  rw [select_statuses_congr max_statuses account.acct db1 db2 h]

/-- After a non-forced `_process_account` run on an account with selected
statuses and a configured provider, a Summary whose fingerprint is the
hash of the assembled document is present (either it was already cached,
or it was just stored). -/
theorem process_account_summary_exists (hash : String → String)
    (dumps : List String → String) (fmtTime : Time → String)
    (llm_provider llm_model : String) (api_result : Option SummaryOutput)
    (max_statuses : Nat) (db : DB) (account : Account)
    (hne : (select_statuses max_statuses db account.acct).isEmpty = false) :
    ∃ s ∈ (process_account hash dumps fmtTime llm_provider llm_model true api_result
            max_statuses db account false).db.summaries,
      s.account_acct = account.acct ∧
      s.doc_hash = hash (build_doc_text fmtTime max_statuses db account) := by
  simp only [process_account, hne, Bool.false_eq_true, if_false]
  by_cases hc : db.summaries.any
      (fun s => s.account_acct == account.acct &&
        s.doc_hash == hash (build_doc_text fmtTime max_statuses db account)) = true
  · rw [if_pos (by simp [hc])]
    obtain ⟨s, hmem, hpred⟩ := List.any_eq_true.mp hc
    rw [Bool.and_eq_true, beq_iff_eq, beq_iff_eq] at hpred
    exact ⟨s, hmem, hpred.1, hpred.2⟩
  · rw [if_neg (by simp [hc]), if_neg (by simp)]
    exact ⟨_, List.mem_append_right _ (List.mem_singleton_self _), rfl, rfl⟩

/-- C5: determinism of document assembly and fingerprinting, and cache-hit
behaviour of the second run.  If the statuses and the account's display
metadata are unchanged after a first non-forced `_process_account` run
(with selected posts and a configured provider), then: (1) the document
assembled on the second run is identical to the first run's (so the
external hash yields an identical fingerprint); (2) the second run's cache
check finds a Summary carrying that fingerprint; (3) the second run makes
no generation call; and (4) the second run leaves the store unchanged. -/
theorem c5_fingerprint_stability_cache_hit (hash : String → String)
    (dumps : List String → String) (fmtTime : Time → String)
    (llm_provider llm_model : String) (api1 api2 : Option SummaryOutput)
    (max_statuses : Nat) (db : DB) (account : Account)
    (hne : (select_statuses max_statuses db account.acct).isEmpty = false) :
    build_doc_text fmtTime max_statuses
        (process_account hash dumps fmtTime llm_provider llm_model true api1 max_statuses
          db account false).db account =
      build_doc_text fmtTime max_statuses db account ∧
    (∃ s ∈ (process_account hash dumps fmtTime llm_provider llm_model true api1
             max_statuses db account false).db.summaries,
       s.account_acct = account.acct ∧
       s.doc_hash = hash (build_doc_text fmtTime max_statuses db account)) ∧
    (process_account hash dumps fmtTime llm_provider llm_model true api2 max_statuses
       (process_account hash dumps fmtTime llm_provider llm_model true api1 max_statuses
         db account false).db account false).generation_called = false ∧
    (process_account hash dumps fmtTime llm_provider llm_model true api2 max_statuses
       (process_account hash dumps fmtTime llm_provider llm_model true api1 max_statuses
         db account false).db account false).db =
      (process_account hash dumps fmtTime llm_provider llm_model true api1 max_statuses
        db account false).db := by
  have hstat := process_account_statuses hash dumps fmtTime llm_provider llm_model true
    api1 max_statuses db account false
  have hsel := select_statuses_congr max_statuses account.acct
    (process_account hash dumps fmtTime llm_provider llm_model true api1 max_statuses
      db account false).db db hstat
  have hdoc := build_doc_text_congr fmtTime max_statuses
    (process_account hash dumps fmtTime llm_provider llm_model true api1 max_statuses
      db account false).db db account hstat
  obtain ⟨s, hmem, hacct, hhash⟩ := process_account_summary_exists hash dumps fmtTime
    llm_provider llm_model api1 max_statuses db account hne
  have hany : (process_account hash dumps fmtTime llm_provider llm_model true api1
      max_statuses db account false).db.summaries.any
      (fun x => x.account_acct == account.acct &&
        x.doc_hash == hash (build_doc_text fmtTime max_statuses
          (process_account hash dumps fmtTime llm_provider llm_model true api1
            max_statuses db account false).db account)) = true := by
    refine List.any_eq_true.mpr ⟨s, hmem, ?_⟩
    rw [hdoc, Bool.and_eq_true, beq_iff_eq, beq_iff_eq]
    exact ⟨hacct, hhash⟩
  have key : process_account hash dumps fmtTime llm_provider llm_model true api2
      max_statuses
      (process_account hash dumps fmtTime llm_provider llm_model true api1 max_statuses
        db account false).db account false =
      ⟨(process_account hash dumps fmtTime llm_provider llm_model true api1 max_statuses
          db account false).db, false⟩ := by
    generalize hR : process_account hash dumps fmtTime llm_provider llm_model true api1
      max_statuses db account false = r at hsel hany
    simp only [process_account, hsel, hne, Bool.false_eq_true, if_false]
    rw [if_pos (by simp [hany])]
  exact ⟨hdoc, ⟨s, hmem, hacct, hhash⟩, by rw [key], by rw [key]⟩

/-- Witness for C5 at a concrete input: `alice` with one stored post; the
first run stores a summary, the second run is a cache hit and makes no
generation call. -/
theorem c5_fingerprint_stability_cache_hit_witness :
    (process_account (fun _ => "newhash") (fun _ => "[]") (fun _ => "ts") "openai" "gpt-4o"
       true none 500
       (process_account (fun _ => "newhash") (fun _ => "[]") (fun _ => "ts") "openai"
         "gpt-4o" true none 500 fixC1db fixAlice false).db
       fixAlice false).generation_called = false :=
  (c5_fingerprint_stability_cache_hit (fun _ => "newhash") (fun _ => "[]") (fun _ => "ts")
    "openai" "gpt-4o" none none 500 fixC1db fixAlice (by decide)).2.2.1

/-- Erasing the first match removes exactly one match (or none when there
is none; `Nat` subtraction absorbs that case). -/
theorem countP_eraseP_self {α : Type} (p : α → Bool) :
    ∀ l : List α, (l.eraseP p).countP p = l.countP p - 1 := by
  intro l
  induction l with
  | nil => simp
  | cons a l ih =>
    by_cases ha : p a = true
    · rw [List.eraseP_cons_of_pos ha, List.countP_cons_of_pos p l ha]
      omega
    · rw [List.eraseP_cons_of_neg ha, List.countP_cons_of_neg p _ ha,
        List.countP_cons_of_neg p l ha, ih]

/-- Erasing the first `p`-match does not change the `p`-complement. -/
theorem filter_not_eraseP {α : Type} (p : α → Bool) :
    ∀ l : List α, (l.eraseP p).filter (fun a => !p a) = l.filter (fun a => !p a) := by
  intro l
  induction l with
  | nil => simp
  | cons a l ih =>
    by_cases ha : p a = true
    · rw [List.eraseP_cons_of_pos ha, List.filter_cons_of_neg (by simp [ha])]
    · have hpa : p a = false := by simpa using ha
      simp [List.eraseP_cons_of_neg ha, List.filter_cons, hpa, ih]

/-- Whenever `_process_account` reports that the generation call was made,
it took the save path: the Summary and PersonDoc tables each become
"erase the first row of this account, then append the fresh row", both
fresh rows carrying the fingerprint of the assembled document. -/
theorem process_account_save_shape (hash : String → String)
    (dumps : List String → String) (fmtTime : Time → String)
    (llm_provider llm_model : String) (provider_configured : Bool)
    (api_result : Option SummaryOutput) (max_statuses : Nat) (db : DB)
    (account : Account) (force : Bool)
    (hgen : (process_account hash dumps fmtTime llm_provider llm_model
      provider_configured api_result max_statuses db account force).generation_called =
      true) :
    (process_account hash dumps fmtTime llm_provider llm_model provider_configured
        api_result max_statuses db account force).db.summaries =
      db.summaries.eraseP (fun s => s.account_acct == account.acct) ++
        [{ account_acct := account.acct,
           doc_hash := hash (build_doc_text fmtTime max_statuses db account),
           headline := (generate_summary api_result).headline,
           blurb := (generate_summary api_result).blurb,
           tags_json := dumps (generate_summary api_result).tags,
           llm_provider := llm_provider, llm_model := llm_model,
           prompt_version := "1.0" }] ∧
    (process_account hash dumps fmtTime llm_provider llm_model provider_configured
        api_result max_statuses db account force).db.personDocs =
      db.personDocs.eraseP (fun d => d.account_acct == account.acct) ++
        [{ account_acct := account.acct,
           doc_hash := hash (build_doc_text fmtTime max_statuses db account),
           doc_text := build_doc_text fmtTime max_statuses db account }] := by
  by_cases hc1 : (select_statuses max_statuses db account.acct).isEmpty = true
  · exfalso
    simp [process_account, hc1] at hgen
  · by_cases hc2 : (db.summaries.any
        (fun s => s.account_acct == account.acct &&
          s.doc_hash == hash (build_doc_text fmtTime max_statuses db account)) &&
        !force) = true
    · exfalso
      simp only [process_account] at hgen
      rw [if_neg hc1, if_pos hc2] at hgen
      exact absurd hgen (by simp)
    · by_cases hc3 : provider_configured = true
      · constructor <;>
        · simp only [process_account]
          rw [if_neg hc1, if_neg hc2, if_neg (by simp [hc3])]
      · exfalso
        simp only [process_account] at hgen
        rw [if_neg hc1, if_neg hc2,
          if_pos (by simp [show provider_configured = false from by simpa using hc3])] at hgen
        exact absurd hgen (by simp)

/-- C8: the one-live-row invariant.  Whenever a regeneration actually
performed the generate-and-save step, and the store beforehand respected
the uniqueness constraint (at most one Summary and one PersonDoc row per
account), afterwards the processed account has exactly one Summary row and
exactly one PersonDoc row, both carrying the freshly computed fingerprint,
and the rows of every other account are untouched — superseded rows are
replaced via delete-then-insert, never accumulated. -/
theorem c8_one_live_row (hash : String → String) (dumps : List String → String)
    (fmtTime : Time → String) (llm_provider llm_model : String)
    (provider_configured : Bool) (api_result : Option SummaryOutput)
    (max_statuses : Nat) (db : DB) (account : Account) (force : Bool)
    (hs1 : db.summaries.countP (fun s => s.account_acct == account.acct) ≤ 1)
    (hd1 : db.personDocs.countP (fun d => d.account_acct == account.acct) ≤ 1)
    (hgen : (process_account hash dumps fmtTime llm_provider llm_model
      provider_configured api_result max_statuses db account force).generation_called =
      true) :
    (process_account hash dumps fmtTime llm_provider llm_model provider_configured
        api_result max_statuses db account force).db.summaries.countP
      (fun s => s.account_acct == account.acct) = 1 ∧
    (process_account hash dumps fmtTime llm_provider llm_model provider_configured
        api_result max_statuses db account force).db.personDocs.countP
      (fun d => d.account_acct == account.acct) = 1 ∧
    (∀ s ∈ (process_account hash dumps fmtTime llm_provider llm_model
        provider_configured api_result max_statuses db account force).db.summaries,
      s.account_acct = account.acct →
      s.doc_hash = hash (build_doc_text fmtTime max_statuses db account)) ∧
    (∀ d ∈ (process_account hash dumps fmtTime llm_provider llm_model
        provider_configured api_result max_statuses db account force).db.personDocs,
      d.account_acct = account.acct →
      d.doc_hash = hash (build_doc_text fmtTime max_statuses db account)) ∧
    (process_account hash dumps fmtTime llm_provider llm_model provider_configured
        api_result max_statuses db account force).db.summaries.filter
      (fun s => !(s.account_acct == account.acct)) =
      db.summaries.filter (fun s => !(s.account_acct == account.acct)) ∧
    (process_account hash dumps fmtTime llm_provider llm_model provider_configured
        api_result max_statuses db account force).db.personDocs.filter
      (fun d => !(d.account_acct == account.acct)) =
      db.personDocs.filter (fun d => !(d.account_acct == account.acct)) := by
  obtain ⟨hS, hD⟩ := process_account_save_shape hash dumps fmtTime llm_provider llm_model
    provider_configured api_result max_statuses db account force hgen
  have hcountS : (db.summaries.eraseP
      (fun s => s.account_acct == account.acct)).countP
      (fun s => s.account_acct == account.acct) = 0 := by
    rw [countP_eraseP_self]
    omega
  have hcountD : (db.personDocs.eraseP
      (fun d => d.account_acct == account.acct)).countP
      (fun d => d.account_acct == account.acct) = 0 := by
    rw [countP_eraseP_self]
    omega
  refine ⟨?_, ?_, ?_, ?_, ?_, ?_⟩
  · rw [hS, List.countP_append, hcountS]
    simp [List.countP_cons]
  · rw [hD, List.countP_append, hcountD]
    simp [List.countP_cons]
  · intro s hmem hacct
    rw [hS] at hmem
    rcases List.mem_append.mp hmem with h | h
    · exfalso
      have := List.countP_eq_zero.mp hcountS s h
      simp [hacct] at this
    · rw [List.mem_singleton.mp h]
  · intro d hmem hacct
    rw [hD] at hmem
    rcases List.mem_append.mp hmem with h | h
    · exfalso
      have := List.countP_eq_zero.mp hcountD d h
      simp [hacct] at this
    · rw [List.mem_singleton.mp h]
  · rw [hS, List.filter_append, filter_not_eraseP, List.filter_cons_of_neg (by simp),
      List.filter_nil, List.append_nil]
  · rw [hD, List.filter_append, filter_not_eraseP, List.filter_cons_of_neg (by simp),
      List.filter_nil, List.append_nil]

/-- Witness for C8 at a concrete input: the regeneration of `alice` in the
concrete store (one prior Summary, none for any other account) yields
exactly one Summary and one PersonDoc row for `alice`. -/
theorem c8_one_live_row_witness :
    fixC1run.db.summaries.countP (fun s => s.account_acct == "alice") = 1 ∧
    fixC1run.db.personDocs.countP (fun d => d.account_acct == "alice") = 1 :=
  ⟨(c8_one_live_row (fun _ => "newhash") (fun _ => "[]") (fun _ => "ts") "openai"
      "gpt-4o" true none 500 fixC1db fixAlice false (by decide) (by decide)
      (by decide)).1,
   (c8_one_live_row (fun _ => "newhash") (fun _ => "[]") (fun _ => "ts") "openai"
      "gpt-4o" true none 500 fixC1db fixAlice false (by decide) (by decide)
      (by decide)).2.1⟩

/-! ### Lemmas on the Registry Reconciler -/

/-- A fold preserves any invariant that each step preserves (steps taken
from a list whose elements satisfy `Q`). -/
theorem foldl_preserve {β α : Type} (P : β → Prop) (Q : α → Prop) (step : β → α → β)
    (hstep : ∀ d x, Q x → P d → P (step d x)) :
    ∀ (l : List α) (d : β), (∀ x ∈ l, Q x) → P d → P (l.foldl step d) := by
  intro l
  induction l with
  | nil => intro d _ h; exact h
  | cons a l ih =>
    intro d hQ hP
    exact ih (step d a) (fun x hx => hQ x (List.mem_cons_of_mem _ hx))
      (hstep d a (hQ a (List.mem_cons_self _ _)) hP)

/-- An upsert never deletes a handle: any handle present before is present
after. -/
theorem upsert_account_preserves_handle (now : Time) (api : ApiAccount) (db : DB)
    (h : String) (hex : ∃ b ∈ db.accounts, b.acct = h) :
    ∃ b ∈ (upsert_account now db api).accounts, b.acct = h := by
  obtain ⟨b, hb, hbh⟩ := hex
  unfold upsert_account
  by_cases hany : db.accounts.any (fun a => a.acct == api.acct) = true
  · rw [if_pos hany]
    rcases mem_replaceFirst (fun a => a.acct == api.acct) (update_mutable_fields now api)
        db.accounts b hb with h1 | ⟨_, h2⟩
    · exact ⟨b, h1, hbh⟩
    · exact ⟨update_mutable_fields now api b, h2, hbh⟩
  · rw [if_neg hany]
    exact ⟨b, List.mem_append_left _ hb, hbh⟩

/-- An upsert for a different handle leaves an account row untouched. -/
theorem upsert_account_preserves_other (now : Time) (api : ApiAccount) (db : DB)
    (b : Account) (hne : api.acct ≠ b.acct) (hb : b ∈ db.accounts) :
    b ∈ (upsert_account now db api).accounts := by
  unfold upsert_account
  have hpb : (b.acct == api.acct) = false := by
    simp only [beq_eq_false_iff_ne, ne_eq]
    exact fun hcontra => hne hcontra.symm
  by_cases hany : db.accounts.any (fun a => a.acct == api.acct) = true
  · rw [if_pos hany]
    exact mem_replaceFirst_of_neg _ _ db.accounts b hb hpb
  · rw [if_neg hany]
    exact List.mem_append_left _ hb

/-- C9: frame effect of the reconciler's upsert.  (1) For an account
already present locally, the upsert rewrites exactly the row found for the
handle: the new row keeps the handle, the remote numeric id, the creation
timestamp and `last_fetch_at` of the old row, while the display name, url,
avatar, bot flag are overwritten from the remote record and
`last_seen_at` is set to `now`.  (2) Reconciliation never deletes: every
handle present before a full following-list sync is still present after.
(3) An account whose handle does not occur in the remote following list is
left completely untouched (it merely stops receiving `last_seen_at`
refreshes and ages out of active selection). -/
theorem c9_upsert_frame_effect :
    (∀ (now : Time) (db : DB) (api : ApiAccount) (a : Account),
       db.accounts.find? (fun x => x.acct == api.acct) = some a →
       (upsert_account now db api).accounts.find? (fun x => x.acct == api.acct) =
           some (update_mutable_fields now api a) ∧
         (update_mutable_fields now api a).acct = a.acct ∧
         (update_mutable_fields now api a).server_account_id = a.server_account_id ∧
         (update_mutable_fields now api a).created_at = a.created_at ∧
         (update_mutable_fields now api a).last_fetch_at = a.last_fetch_at ∧
         (update_mutable_fields now api a).display_name = api.display_name ∧
         (update_mutable_fields now api a).url = api.url ∧
         (update_mutable_fields now api a).avatar_url = api.avatar ∧
         (update_mutable_fields now api a).bot = api.bot ∧
         (update_mutable_fields now api a).last_seen_at = now) ∧
    (∀ (now : Time) (pages : List (List ApiAccount)) (db : DB) (b : Account),
       b ∈ db.accounts →
       ∃ b' ∈ (sync_following_list now pages db).accounts, b'.acct = b.acct) ∧
    (∀ (now : Time) (pages : List (List ApiAccount)) (db : DB) (b : Account),
       b ∈ db.accounts →
       (∀ page ∈ pages, ∀ api ∈ page, api.acct ≠ b.acct) →
       b ∈ (sync_following_list now pages db).accounts) := by
  refine ⟨?_, ?_, ?_⟩
  · intro now db api a hfind
    have hpa : (fun x : Account => x.acct == api.acct) a = true :=
      @List.find?_some Account (fun x => x.acct == api.acct) a db.accounts hfind
    have hany : db.accounts.any (fun x => x.acct == api.acct) = true :=
      List.any_eq_true.mpr ⟨a, List.mem_of_find?_eq_some hfind, hpa⟩
    refine ⟨?_, rfl, rfl, rfl, rfl, rfl, rfl, rfl, rfl, rfl⟩
    unfold upsert_account
    rw [if_pos hany]
    exact find?_replaceFirst (fun x => x.acct == api.acct)
      (update_mutable_fields now api) (fun x hx => hx) db.accounts a hfind
  · intro now pages db b hb
    unfold sync_following_list
    exact foldl_preserve (fun d : DB => ∃ b' ∈ d.accounts, b'.acct = b.acct)
      (fun _ : List ApiAccount => True)
      (fun d page => page.foldl (upsert_account now) d)
      (fun d page _ hP =>
        foldl_preserve (fun d2 : DB => ∃ b' ∈ d2.accounts, b'.acct = b.acct)
          (fun _ : ApiAccount => True) (upsert_account now)
          (fun d2 api _ hP2 => upsert_account_preserves_handle now api d2 b.acct hP2)
          page d (fun _ _ => trivial) hP)
      pages db (fun _ _ => trivial) ⟨b, hb, rfl⟩
  · intro now pages db b hb hmiss
    unfold sync_following_list
    exact foldl_preserve (fun d : DB => b ∈ d.accounts)
      (fun page : List ApiAccount => ∀ api ∈ page, api.acct ≠ b.acct)
      (fun d page => page.foldl (upsert_account now) d)
      (fun d page hQ hP =>
        foldl_preserve (fun d2 : DB => b ∈ d2.accounts)
          (fun api : ApiAccount => api.acct ≠ b.acct) (upsert_account now)
          (fun d2 api hq hP2 => upsert_account_preserves_other now api d2 b hq hP2)
          page d hQ hP)
      pages db hmiss hb

/-- Witness for C9 at a concrete input: upserting a remote record for
`alice` over the store in which she was fetched at time 100 keeps her
handle, numeric id, creation timestamp and `last_fetch_at`, and overwrites
the display fields and `last_seen_at`; and a following list that does not
mention `bob` leaves his row untouched. -/
theorem c9_upsert_frame_effect_witness :
    ((upsert_account 500 fixC4db
        { id := "1", acct := "alice", display_name := some "Alice!" }).accounts.find?
      (fun x => x.acct == "alice") =
      some (update_mutable_fields 500
        { id := "1", acct := "alice", display_name := some "Alice!" } fixAliceFetched) ∧
      (update_mutable_fields 500
        { id := "1", acct := "alice", display_name := some "Alice!" }
        fixAliceFetched).last_fetch_at = fixAliceFetched.last_fetch_at) ∧
    fixAliceFetched ∈ (sync_following_list 500
      [[{ id := "2", acct := "bob" }]] fixC4db).accounts :=
  ⟨⟨((c9_upsert_frame_effect.1 500 fixC4db
        { id := "1", acct := "alice", display_name := some "Alice!" } fixAliceFetched
        (by decide))).1,
    ((c9_upsert_frame_effect.1 500 fixC4db
        { id := "1", acct := "alice", display_name := some "Alice!" } fixAliceFetched
        (by decide))).2.2.2.2.1⟩,
   c9_upsert_frame_effect.2.2 500 [[{ id := "2", acct := "bob" }]] fixC4db
     fixAliceFetched (by decide) (by decide)⟩

end MastoHuman
